import Mathlib

/-!
Verification of the WebTimelapse capture scheduler and frame-assembly
pipeline (`main.py`) against its design specification.

The Python program is shallowly embedded as follows.

* Pure string/number computations (`get_timestamped_name`, the shot-count
  derivation, the ffmpeg command construction) become Lean functions.
* The scheduling loop in `main` is modelled in a trace monad `M`:
  a computation is a pair of the list of observable actions it performed
  (captures, sleeps, driver acquisition and release, the video-build call)
  and an `Except` value recording whether it finished normally or was
  terminated by an exception.  Python exception semantics are mirrored:
  `except Exception` catches ordinary errors (`Exc.err`) but not
  `KeyboardInterrupt` (`Exc.interrupt`), and `try/finally` runs the
  finaliser on every path.
* External effects whose outcomes the program merely observes (whether a
  given capture attempt succeeds, how long it took, whether ffmpeg is on
  PATH, its exit code, whether an individual `os.rename` back succeeds)
  are supplied by environment records of oracles, so the theorems quantify
  over every possible behaviour of the outside world.
* The frame store directory is a list of files, each a name plus a
  modification time; `os.rename` preserves the mtime and rewrites the
  name, and `glob` + `sort(key=getmtime)` become a filter and a stable
  insertion sort keyed on the mtime, mirroring the stable sort of CPython.
-/

namespace WT

/-! ### Timestamped frame names (`get_timestamped_name`, main.py lines 55-57) -/

/-- Python format 06d (used as the index field of the filename): the decimal rendering of `n`, left-padded with
zeros to at least six characters. -/
def pad6 (n : Nat) : String :=
  String.mk (List.replicate (6 - (Nat.repr n).length) '0') ++ Nat.repr n

/-- `get_timestamped_name(idx)` (main.py line 55-57) with the strftime
value supplied as the argument `ts`: the frame filename embeds the
zero-padded sequence index followed by the wall-clock timestamp. -/
def get_timestamped_name (idx : Nat) (ts : String) : String :=
  "screenshot_" ++ pad6 idx ++ "_" ++ ts ++ ".png"

/-! ### Exceptions and observable actions of the scheduler -/

/-- Python exceptions as seen by this program: `err` is any subclass of
`Exception` (caught by the per-tick `except Exception` handler), while
`interrupt` is `KeyboardInterrupt`, which `except Exception` does not
catch. -/
inductive Exc where
  | err (msg : String)
  | interrupt
deriving DecidableEq

/-- Observable actions of a run of `main`. -/
inductive Action where
  | captureTick (idx : Nat) (name : String) (ok : Bool)
  | sleep (seconds : ℚ)
  | acquire
  | quit
  | buildVideo
deriving DecidableEq

/-- A computation: the trace of actions it performed, and whether it
returned normally or raised. -/
abbrev M := List Action × Except Exc Unit

/-- The computation that does nothing. -/
def mpure : M := ([], Except.ok ())

/-- Sequencing: if the first computation raises, the second never runs. -/
def mseq (x y : M) : M :=
  match x with
  | (tr, Except.error e) => (tr, Except.error e)
  | (tr, Except.ok _) => (tr ++ y.1, y.2)

/-- Python `try/finally`: the finaliser runs whether or not the body
raised; an exception raised by the finaliser replaces the result of the body. -/
def mtryFinally (body fin : M) : M :=
  match fin.2 with
  | Except.error e => (body.1 ++ fin.1, Except.error e)
  | Except.ok _ => (body.1 ++ fin.1, body.2)

/-! ### The capture procedure (`capture_once`, `fullpage_screenshot`) -/

/-- Oracle outcomes for the browser-driver calls made by one tick.
Each field is the result the driver would return for that call. -/
structure CaptureEnv where
  /-- `driver.get(url)`, the settle `time.sleep`, and `scroll_to_top`
  (main.py lines 88-90), collapsed into the navigation phase. -/
  nav : Except Exc Unit
  /-- the `execute_script` height query (main.py lines 68-74) -/
  heightQuery : Except Exc Int
  /-- `driver.get_window_size()["width"]` (main.py line 78) -/
  getWidth : Except Exc Int
  /-- `driver.set_window_size(w, max_height)` (main.py line 79) -/
  setSize : Except Exc Unit
  /-- the post-resize settle `time.sleep(0.5)` (main.py line 81) -/
  settle : Except Exc Unit
  /-- `driver.save_screenshot(path)` inside `fullpage_screenshot` -/
  fpSnapshot : Except Exc Unit
  /-- `driver.save_screenshot(path)` for a viewport snapshot -/
  vpSnapshot : Except Exc Unit

/-- `viewport_screenshot` (main.py lines 84-85). -/
def viewport_screenshot (e : CaptureEnv) : Except Exc Unit :=
  e.vpSnapshot

/-- `fullpage_screenshot` (main.py lines 62-82): height query, clamp to
20000, window resize to (current width, clamped height), settle, snapshot.
Any step raising propagates the exception to the caller. -/
def fullpage_screenshot (e : CaptureEnv) : Except Exc Unit :=
  match e.heightQuery with
  | Except.error x => Except.error x
  | Except.ok totalHeight =>
    let maxHeight := min totalHeight 20000
    match e.getWidth with
    | Except.error x => Except.error x
    | Except.ok w =>
      match e.setSize with
      | Except.error x => Except.error x
      | Except.ok _ =>
        match e.settle with
        | Except.error x => Except.error x
        | Except.ok _ =>
          -- the snapshot is taken at size (w, maxHeight)
          match w, maxHeight with
          | _, _ => e.fpSnapshot

/-- `capture_once` (main.py lines 87-98): navigate, settle, scroll to top;
in full-page mode try `fullpage_screenshot` and on any `Exception` fall
back to a viewport snapshot (`KeyboardInterrupt` is not an `Exception`
and is not caught); otherwise take a viewport snapshot directly. -/
def capture_once (fullpage : Bool) (e : CaptureEnv) : Except Exc Unit :=
  match e.nav with
  | Except.error x => Except.error x
  | Except.ok _ =>
    if fullpage then
      match fullpage_screenshot e with
      | Except.ok _ => Except.ok ()
      | Except.error (Exc.err _) => viewport_screenshot e
      | Except.error Exc.interrupt => Except.error Exc.interrupt
    else
      viewport_screenshot e

/-! ### The scheduling loop (`main`, main.py lines 157-204) -/

/-- Oracles for the per-tick behaviour of the outside world, indexed by
the sequence index of the tick. -/
structure TickEnv where
  /-- the outcome of the `capture_once` call of tick `i`, as seen by the
  per-tick `try/except Exception` handler of main.py lines 184-188 -/
  capture : Nat → Except Exc Unit
  /-- `(datetime.now() - t0).total_seconds()` of tick `i` (line 192) -/
  elapsed : Nat → ℚ
  /-- the outcome of the `time.sleep` after tick `i` (line 194) -/
  sleepResult : Nat → Except Exc Unit
  /-- the `strftime` timestamp string of tick `i` (line 56) -/
  ts : Nat → String

/-- The body of one tick (main.py lines 179-188): derive the frame name from
the sequence index and timestamp, attempt the capture, catch `Exception`
(recording a failed frame and continuing) but not `KeyboardInterrupt`. -/
def tickM (env : TickEnv) (i : Nat) : M :=
  match env.capture i with
  | Except.ok _ =>
      ([Action.captureTick i (get_timestamped_name i (env.ts i)) true], Except.ok ())
  | Except.error (Exc.err _) =>
      ([Action.captureTick i (get_timestamped_name i (env.ts i)) false], Except.ok ())
  | Except.error Exc.interrupt => ([], Except.error Exc.interrupt)

/-- The inter-tick sleep (main.py lines 190-194): only when this is not
the last tick, sleep `max 0 (interval - elapsed)` seconds. -/
def sleepM (env : TickEnv) (interval : ℚ) (n i : Nat) : M :=
  if i < n - 1 then
    match env.sleepResult i with
    | Except.ok _ => ([Action.sleep (max 0 (interval - env.elapsed i))], Except.ok ())
    | Except.error x => ([], Except.error x)
  else mpure

/-- The `for i in range(n)` scheduling loop of main.py lines 178-194,
starting at tick `i`. -/
def loopM (env : TickEnv) (interval : ℚ) (n : Nat) (i : Nat) : M :=
  if _h : i < n then
    mseq (tickM env i) (mseq (sleepM env interval n i) (loopM env interval n (i + 1)))
  else mpure
termination_by n - i

/-- Environment of a whole `main` run. -/
structure MainEnv where
  tick : TickEnv
  /-- the outcome of `new_driver` (main.py line 176) -/
  acquire : Except Exc Unit
  interval : ℚ
  /-- the shot count, as computed at main.py lines 162-166 (a Python int,
  possibly non-positive when `--shots` is non-positive) -/
  nshots : Int

/-- `main` (main.py lines 157-204): acquire the driver inside `try`; run
the loop; `finally: if driver: driver.quit()` — the quit happens iff the
driver was assigned, on every exit path; only if the whole `try/finally`
completed normally does control reach `maybe_build_video`.  Python
`range(k)` is empty for `k <= 0`, hence `Int.toNat`. -/
def mainM (env : MainEnv) : M :=
  match env.acquire with
  | Except.error x => ([], Except.error x)
  | Except.ok _ =>
      mseq
        (mtryFinally
          (mseq ([Action.acquire], Except.ok ())
            (loopM env.tick env.interval env.nshots.toNat 0))
          ([Action.quit], Except.ok ()))
        ([Action.buildVideo], Except.ok ())

/-- The frame records visible in a trace: one per executed capture tick,
carrying the sequence index, the filename, and the capture outcome. -/
def framesOf (tr : List Action) : List (Nat × String × Bool) :=
  tr.filterMap fun a =>
    match a with
    | Action.captureTick i nm ok => some (i, nm, ok)
    | _ => none

/-- The inter-tick sleep durations visible in a trace. -/
def sleepsOf (tr : List Action) : List ℚ :=
  tr.filterMap fun a =>
    match a with
    | Action.sleep s => some s
    | _ => none

/-! ### Shot-count derivation (main.py lines 162-166) -/

/-- Python `round` on an exact rational value: round half to even. -/
def pyRound (q : ℚ) : ℤ :=
  if Int.fract q = 1 / 2 then 2 * round (q / 2) else round q

/-- The shot count of main.py lines 162-166: an explicit `--shots` value
is used as-is; only the `--duration` branch applies the
`max(1, round(duration / interval))` floor. -/
def computeNshots (shots : Option Int) (duration interval : Int) : Int :=
  match shots with
  | some s => s
  | none => max 1 (pyRound ((duration : ℚ) / (interval : ℚ)))

/-! ### The frame store and `maybe_build_video` (main.py lines 100-155) -/

/-- A file in the output folder: its (base)name and its filesystem
modification time (`os.path.getmtime`). -/
structure FSFile where
  name : String
  mtime : ℚ
deriving DecidableEq

/-- The effect of `os.rename(a, b)` on a single file name. -/
def step (a b n : String) : String := if n = a then b else n

/-- The effect of `os.rename(a, b)` on the folder: the file named `a` is
now named `b`; the modification time is preserved. -/
def renameFile (fs : List FSFile) (a b : String) : List FSFile :=
  fs.map fun f => ⟨step a b f.name, f.mtime⟩

/-- Membership test of the glob pattern `screenshot_*.png` (main.py
line 114).  Every character of the fixed prefix differs from a dot, so
for this pattern the conjunction of the prefix and suffix tests agrees
with `fnmatch` exactly. -/
def isScreenshotName (n : String) : Bool :=
  "screenshot_".data.isPrefixOf n.data && ".png".data.isSuffixOf n.data

/-- `glob.glob(os.path.join(folder, "screenshot_*.png"))` (line 114). -/
def globShots (fs : List FSFile) : List FSFile :=
  fs.filter (fun f => isScreenshotName f.name)

/-- Comparison key of `screenshot_files.sort(key=os.path.getmtime)`. -/
def mtimeLE (a b : FSFile) : Prop := a.mtime ≤ b.mtime

instance : DecidableRel mtimeLE := fun a b => inferInstanceAs (Decidable (a.mtime ≤ b.mtime))

instance : IsTotal FSFile mtimeLE := ⟨fun a b => le_total a.mtime b.mtime⟩

instance : IsTrans FSFile mtimeLE := ⟨fun _ _ _ h1 h2 => le_trans h1 h2⟩

/-- Line 115: the screenshot files sorted by modification time ascending.
The CPython `list.sort` is a stable sort by the key; it is modelled by a
stable insertion sort on the same key. -/
def sortedShots (fs : List FSFile) : List FSFile :=
  List.insertionSort mtimeLE (globShots fs)

/-- The temporary name of ordinal `i`, zero-padded to six digits (line 124). -/
def tempBase (i : Nat) : String := "temp_" ++ pad6 i ++ ".png"

/-- The `temp_files` mapping built by the enumeration loop of lines
122-126: the file at position `i` of the sorted list is paired with the
temporary name showing ordinal `i` (the first argument is the running
value of `enumerate`). -/
def tempPairsFrom : Nat → List FSFile → List (String × String)
  | _, [] => []
  | i, f :: rest => (f.name, tempBase i) :: tempPairsFrom (i + 1) rest

/-- `temp_files` for the whole sorted list (enumeration starts at 0). -/
def tempPairs (l : List FSFile) : List (String × String) :=
  tempPairsFrom 0 l

/-- The renames of the forward loop (line 125), applied in order. -/
def fwdFS (fs : List FSFile) (prs : List (String × String)) : List FSFile :=
  prs.foldl (fun s p => renameFile s p.1 p.2) fs

/-- The restore loop of lines 144-148: each pair is renamed back in
order; an individual rename may fail (`except: pass`), in which case the
folder is left unchanged for that pair and the loop continues.  `ok i`
tells whether the rename of the pair at position `i` succeeds. -/
def restFS (ok : Nat → Bool) : Nat → List FSFile → List (String × String) → List FSFile
  | _, s, [] => s
  | i, s, p :: rest => restFS ok (i + 1) (if ok i then renameFile s p.2 p.1 else s) rest

/-- `ffmpeg -y` writing its output file: overwrite if present, create
otherwise. -/
def addFile (fs : List FSFile) (n : String) (t : ℚ) : List FSFile :=
  if fs.any (fun f => f.name = n) then
    fs.map (fun f => if f.name = n then ⟨n, t⟩ else f)
  else fs ++ [⟨n, t⟩]

/-- `os.path.join(folder, name)` for a relative `name`. -/
def joinPath (folder n : String) : String := folder ++ "/" ++ n

/-- The `-vf` filter of the actual ffmpeg invocation (main.py line 135):
scale to the target width keeping aspect ratio, then pad onto a canvas
whose height is the target width. -/
def cmdVf (width : Int) : String :=
  "scale=" ++ toString width ++ ":-1,pad=" ++ toString width ++ ":" ++
    toString width ++ ":0:0:black"

/-- The `-vf` filter of the manual command printed when ffmpeg is absent
(main.py lines 108-109): scale to the target width keeping aspect ratio,
then pad the height up to the nearest even value. -/
def manualVf (width : Int) : String :=
  "scale=" ++ toString width ++ ":-1,pad=" ++ toString width ++
    ":ceil(ih/2)*2:0:0:black"

/-- The full manual command string printed at main.py lines 108-109. -/
def manualCmd (folder : String) (fps : Int) (videoName : String) (width : Int) : String :=
  "ffmpeg -framerate " ++ toString fps ++ " -pattern_type glob -i \"" ++
    joinPath folder "screenshot_*.png" ++ "\" -vf \"" ++ manualVf width ++
    "\" -c:v libx264 -pix_fmt yuv420p \"" ++ joinPath folder videoName ++ "\""

/-- The argument vector of the actual ffmpeg invocation (lines 129-139). -/
def ffmpegCmd (folder : String) (fps : Int) (videoName : String) (width : Int) : List String :=
  ["ffmpeg", "-y", "-framerate", toString fps, "-pattern_type", "glob",
   "-i", joinPath folder "temp_*.png", "-vf", cmdVf width,
   "-c:v", "libx264", "-pix_fmt", "yuv420p", joinPath folder videoName]

/-- The diagnostics printed by `maybe_build_video`, by shape. -/
inductive Msg where
  /-- lines 106-109: ffmpeg missing; carries the suggested manual command -/
  | ffmpegNotFound (manual : String)
  /-- line 118: no screenshot files found -/
  | noFrames
  /-- line 140: building video -/
  | building
  /-- line 151: video saved; carries the output path -/
  | videoSaved (path : String)
  /-- line 154: ffmpeg failed; carries the captured stderr -/
  | ffmpegFailed (stderr : String)
deriving DecidableEq

/-- Oracles for the outside world of one `maybe_build_video` run. -/
structure BuildEnv where
  /-- `shutil.which("ffmpeg") is not None` (line 105) -/
  ffmpegAvailable : Bool
  /-- `subprocess.run(cmd).returncode` (lines 141, 150) -/
  ffmpegExit : Int
  /-- the captured stderr text of the ffmpeg run -/
  ffmpegStderr : String
  /-- whether the rename back of the pair at position `i` of `temp_files`
  succeeds (lines 145-148) -/
  renameBackOk : Nat → Bool
  /-- the modification time of the video file ffmpeg writes on success -/
  videoMtime : ℚ

/-- What a `maybe_build_video` run returns and leaves behind: the Python
return value, the diagnostics printed, and the final folder contents. -/
structure BuildResult where
  ret : Bool
  msgs : List Msg
  fs : List FSFile
deriving DecidableEq

/-- `maybe_build_video` (main.py lines 100-155).  If ffmpeg is absent:
print the manual command and return `False` with the folder untouched.
Otherwise glob and sort the screenshots; if none, return `False`.
Otherwise rename each, in sorted order, to its temporary ordinal name,
run ffmpeg (which on exit code 0 writes the video file into the folder),
rename every temporary file back (each rename individually allowed to
fail silently), and return `returncode == 0`. -/
def maybe_build_video (fs : List FSFile) (env : BuildEnv) (folder : String)
    (fps : Int) (videoName : String) (width : Int) : BuildResult :=
  if env.ffmpegAvailable = false then
    { ret := false
      msgs := [Msg.ffmpegNotFound (manualCmd folder fps videoName width)]
      fs := fs }
  else
    let shots := sortedShots fs
    if shots.isEmpty then
      { ret := false, msgs := [Msg.noFrames], fs := fs }
    else
      let prs := tempPairs shots
      let fs1 := fwdFS fs prs
      let fs2 := if env.ffmpegExit = 0 then addFile fs1 videoName env.videoMtime else fs1
      let fs3 := restFS env.renameBackOk 0 fs2 prs
      if env.ffmpegExit = 0 then
        { ret := true
          msgs := [Msg.building, Msg.videoSaved (joinPath folder videoName)]
          fs := fs3 }
      else
        { ret := false
          msgs := [Msg.building, Msg.ffmpegFailed env.ffmpegStderr]
          fs := fs3 }

/-! ### Name-level view of the rename phases -/

/-- The forward renames of lines 122-126, as a function on one file
name: each pair `(original, temp)` is applied in order. -/
def fwdName (prs : List (String × String)) (n : String) : String :=
  prs.foldl (fun m p => step p.1 p.2 m) n

/-- The restore renames of lines 144-148, as a function on one file
name: pair `i` is applied only when its rename back succeeded. -/
def restName (ok : Nat → Bool) : Nat → List (String × String) → String → String
  | _, [], n => n
  | i, p :: rest, n => restName ok (i + 1) rest (if ok i then step p.2 p.1 n else n)

/-! ### Concrete inputs used by the witnesses and counterexamples -/

/-- The actions tick `j` of an `n`-tick run contributes on a normal run:
its capture record, then (except after the last tick) its sleep. -/
def expectedTick (env : TickEnv) (q : ℚ) (n j : Nat) : List Action :=
  Action.captureTick j (get_timestamped_name j (env.ts j)) (env.capture j).isOk ::
    (if j < n - 1 then [Action.sleep (max 0 (q - env.elapsed j))] else [])

/-- A concrete tick whose full-page height query raises while the
viewport fallback succeeds. -/
def fallbackEnv : CaptureEnv :=
  { nav := Except.ok ()
    heightQuery := Except.error (Exc.err "javascript error")
    getWidth := Except.ok 1280
    setSize := Except.ok ()
    settle := Except.ok ()
    fpSnapshot := Except.ok ()
    vpSnapshot := Except.ok () }

/-- A concrete zero-shot environment (explicit `--shots 0`). -/
def zeroShotEnv : MainEnv :=
  { tick :=
      { capture := fun _ => Except.ok ()
        elapsed := fun _ => 1
        sleepResult := fun _ => Except.ok ()
        ts := fun _ => "20250101-120000" }
    acquire := Except.ok ()
    interval := 300
    nshots := 0 }

/-- A three-tick environment in which the middle capture raises. -/
def c1Env : TickEnv :=
  { capture := fun i => if i = 1 then Except.error (Exc.err "timeout") else Except.ok ()
    elapsed := fun _ => 2
    sleepResult := fun _ => Except.ok ()
    ts := fun _ => "20250101-120000" }

/-- A three-tick environment interrupted by the operator during tick 1. -/
def c3Env : MainEnv :=
  { tick :=
      { capture := fun i => if i = 1 then Except.error Exc.interrupt else Except.ok ()
        elapsed := fun _ => 2
        sleepResult := fun _ => Except.ok ()
        ts := fun _ => "20250101-120000" }
    acquire := Except.ok ()
    interval := 300
    nshots := 3 }

/-- Three captured frames whose filenames sort lexicographically against
their capture order (mtimes 1 < 2 < 3). -/
def threeShots : List FSFile :=
  [⟨"screenshot_000002_20250101-120200.png", 3⟩,
   ⟨"screenshot_000000_20250101-120000.png", 1⟩,
   ⟨"screenshot_000001_20250101-120100.png", 2⟩]

/-- A build environment in which ffmpeg is absent. -/
def envNoFfmpeg : BuildEnv :=
  { ffmpegAvailable := false
    ffmpegExit := 0
    ffmpegStderr := ""
    renameBackOk := fun _ => true
    videoMtime := 10 }

/-- A build environment in which ffmpeg runs and fails (exit code 1). -/
def envFfmpegFails : BuildEnv :=
  { ffmpegAvailable := true
    ffmpegExit := 1
    ffmpegStderr := "Error while opening encoder"
    renameBackOk := fun _ => true
    videoMtime := 10 }

/-- A build environment in which ffmpeg succeeds. -/
def envFfmpegOk : BuildEnv :=
  { ffmpegAvailable := true
    ffmpegExit := 0
    ffmpegStderr := ""
    renameBackOk := fun _ => true
    videoMtime := 10 }

/-- A build environment in which ffmpeg fails and the first rename back
(of the pair at position 0) also fails. -/
def envRename0Fails : BuildEnv :=
  { ffmpegAvailable := true
    ffmpegExit := 1
    ffmpegStderr := "Error while opening encoder"
    renameBackOk := fun i => decide (i ≠ 0)
    videoMtime := 10 }

/-! ### Helper lemmas about the scheduling loop -/

theorem loopM_stop (env : TickEnv) (q : ℚ) (n i : Nat) (h : ¬ i < n) :
    loopM env q n i = mpure := by
  rw [loopM]
  simp [h]

theorem loopM_step (env : TickEnv) (q : ℚ) (n i : Nat) (h : i < n) :
    loopM env q n i =
      mseq (tickM env i) (mseq (sleepM env q n i) (loopM env q n (i + 1))) := by
  rw [loopM]
  simp [h]

theorem loopM_normal (env : TickEnv) (q : ℚ) (n : Nat)
    (hc : ∀ i, env.capture i ≠ Except.error Exc.interrupt)
    (hs : ∀ i, env.sleepResult i = Except.ok ()) :
    ∀ k i, i + k = n →
      loopM env q n i = ((List.range' i k).flatMap (expectedTick env q n), Except.ok ()) := by
  intro k
  induction k with
  | zero =>
      intro i hi
      rw [loopM_stop env q n i (by omega)]
      simp [mpure]
  | succ m ih =>
      intro i hi
      have hlt : i < n := by omega
      rw [loopM_step env q n i hlt]
      have htick : tickM env i =
          ([Action.captureTick i (get_timestamped_name i (env.ts i)) (env.capture i).isOk],
            Except.ok ()) := by
        rcases hcap : env.capture i with e | u
        · rcases e with msg | _
          · simp [tickM, hcap, Except.isOk, Except.toBool]
          · exact absurd hcap (hc i)
        · simp [tickM, hcap, Except.isOk, Except.toBool]
      have hsleep : sleepM env q n i =
          ((if i < n - 1 then [Action.sleep (max 0 (q - env.elapsed i))] else []),
            Except.ok ()) := by
        by_cases hin : i < n - 1
        · simp [sleepM, hin, hs i]
        · simp [sleepM, hin, mpure]
      rw [htick, hsleep, ih (i + 1) (by omega)]
      by_cases hin : i < n - 1 <;>
        simp [mseq, expectedTick, List.range'_concat, hin, List.range']

theorem framesOf_append (l1 l2 : List Action) :
    framesOf (l1 ++ l2) = framesOf l1 ++ framesOf l2 :=
  List.filterMap_append l1 l2 _

theorem sleepsOf_append (l1 l2 : List Action) :
    sleepsOf (l1 ++ l2) = sleepsOf l1 ++ sleepsOf l2 :=
  List.filterMap_append l1 l2 _

theorem framesOf_flatMap (env : TickEnv) (q : ℚ) (n : Nat) (l : List Nat) :
    framesOf (l.flatMap (expectedTick env q n)) =
      l.map (fun j => (j, get_timestamped_name j (env.ts j), (env.capture j).isOk)) := by
  induction l with
  | nil => rfl
  | cons j rest ih =>
      rw [List.flatMap_cons, framesOf_append, ih]
      by_cases hj : j < n - 1 <;> simp [expectedTick, framesOf, hj]

theorem sleepsOf_flatMap (env : TickEnv) (q : ℚ) (n : Nat) (l : List Nat) :
    sleepsOf (l.flatMap (expectedTick env q n)) =
      l.flatMap (fun j => if j < n - 1 then [max 0 (q - env.elapsed j)] else []) := by
  induction l with
  | nil => rfl
  | cons j rest ih =>
      rw [List.flatMap_cons, sleepsOf_append, ih, List.flatMap_cons]
      by_cases hj : j < n - 1 <;> simp [expectedTick, sleepsOf, hj]

/-! ### C9: full-page capture falls back to a viewport snapshot -/

/-- C9.  In full-page mode, when navigation succeeded and any step of
`fullpage_screenshot` raised an `Exception`, `capture_once` degrades to
the viewport snapshot: the outcome of the tick is exactly the outcome of the fallback
snapshot, so the tick fails only if the fallback also fails,
and a successful fallback makes the tick a success. -/
theorem c9_fullpage_fallback (e : CaptureEnv) (hn : e.nav = Except.ok ())
    (hf : ∃ s, fullpage_screenshot e = Except.error (Exc.err s)) :
    capture_once true e = viewport_screenshot e ∧
    (viewport_screenshot e = Except.ok () → capture_once true e = Except.ok ()) := by
  obtain ⟨s, hs⟩ := hf
  refine ⟨?_, ?_⟩
  · simp [capture_once, hn, hs]
  · intro hv
    simp [capture_once, hn, hs, hv]

theorem c9_fullpage_fallback_witness :
    (fallbackEnv.nav = Except.ok () ∧
      fullpage_screenshot fallbackEnv = Except.error (Exc.err "javascript error")) ∧
    (capture_once true fallbackEnv = viewport_screenshot fallbackEnv ∧
      (viewport_screenshot fallbackEnv = Except.ok () →
        capture_once true fallbackEnv = Except.ok ())) :=
  ⟨⟨rfl, rfl⟩, c9_fullpage_fallback fallbackEnv rfl ⟨"javascript error", rfl⟩⟩

/-! ### C10: an explicit shot count is used without validation -/

/-- C10.  The `max(1, round(duration / interval))` floor lives only on
the duration branch of the shot-count derivation; an explicit `--shots`
value is used as-is, so with an explicit count `s ≤ 0` the run executes
zero capture ticks, produces no frames, raises no error, and still
reaches the video-assembly step. -/
theorem c10_explicit_shots_unvalidated (s : Int) (hs : s ≤ 0)
    (d itv : Int) (env : MainEnv)
    (hacq : env.acquire = Except.ok ()) (hn : env.nshots = s) :
    computeNshots (some s) d itv = s ∧
    (∀ d2 itv2 : Int, 1 ≤ computeNshots none d2 itv2) ∧
    framesOf (mainM env).1 = [] ∧
    (mainM env).2 = Except.ok () ∧
    Action.buildVideo ∈ (mainM env).1 := by
  have h0 : env.nshots.toNat = 0 := by
    rw [hn]
    exact Int.toNat_of_nonpos hs
  have hloop : loopM env.tick env.interval env.nshots.toNat 0 = mpure := by
    rw [h0]
    exact loopM_stop _ _ _ _ (by omega)
  refine ⟨rfl, fun d2 itv2 => le_max_left _ _, ?_, ?_, ?_⟩ <;>
    simp [mainM, hacq, hloop, mseq, mtryFinally, mpure, framesOf]

theorem c10_explicit_shots_unvalidated_witness :
    ((0 : Int) ≤ 0 ∧ zeroShotEnv.acquire = Except.ok () ∧ zeroShotEnv.nshots = 0) ∧
    (computeNshots (some 0) 100 30 = 0 ∧
      (∀ d2 itv2 : Int, 1 ≤ computeNshots none d2 itv2) ∧
      framesOf (mainM zeroShotEnv).1 = [] ∧
      (mainM zeroShotEnv).2 = Except.ok () ∧
      Action.buildVideo ∈ (mainM zeroShotEnv).1) :=
  ⟨⟨le_refl 0, rfl, rfl⟩, c10_explicit_shots_unvalidated 0 (le_refl 0) 100 30 zeroShotEnv rfl rfl⟩

/-! ### C1: dense sequence indices, failures notwithstanding -/

/-- C1.  A session of `n ≥ 1` ticks whose run is not interrupted executes
exactly `n` capture ticks: the loop finishes normally, the frame records
are exactly those of sequence indices `0 .. n-1` in order (each index
once, its filename derived by `get_timestamped_name` from the index), and
this holds for every capture oracle in which individual captures may
raise arbitrary `Exception`s — a failed capture is caught and the loop
continues. -/
theorem c1_dense_frame_indices (env : TickEnv) (q : ℚ) (n : Nat) (hn : 1 ≤ n)
    (hc : ∀ i, env.capture i ≠ Except.error Exc.interrupt)
    (hs : ∀ i, env.sleepResult i = Except.ok ()) :
    (loopM env q n 0).2 = Except.ok () ∧
    framesOf (loopM env q n 0).1 =
      (List.range n).map
        (fun i => (i, get_timestamped_name i (env.ts i), (env.capture i).isOk)) ∧
    (framesOf (loopM env q n 0).1).map Prod.fst = List.range n := by
  have h := loopM_normal env q n hc hs n 0 (by omega)
  have h2 : framesOf (loopM env q n 0).1 =
      (List.range n).map
        (fun i => (i, get_timestamped_name i (env.ts i), (env.capture i).isOk)) := by
    rw [h]
    show framesOf ((List.range' 0 n).flatMap (expectedTick env q n)) = _
    rw [← List.range_eq_range']
    exact framesOf_flatMap env q n (List.range n)
  refine ⟨by rw [h], h2, ?_⟩
  rw [h2, List.map_map]
  exact List.map_id' _

theorem c1_dense_frame_indices_witness :
    (1 ≤ 3 ∧ (∀ i, c1Env.capture i ≠ Except.error Exc.interrupt) ∧
      (∀ i, c1Env.sleepResult i = Except.ok ())) ∧
    ((loopM c1Env 300 3 0).2 = Except.ok () ∧
      framesOf (loopM c1Env 300 3 0).1 =
        (List.range 3).map
          (fun i => (i, get_timestamped_name i (c1Env.ts i), (c1Env.capture i).isOk)) ∧
      (framesOf (loopM c1Env 300 3 0).1).map Prod.fst = List.range 3) :=
  ⟨⟨by omega,
    fun i => by by_cases h : i = 1 <;> simp [c1Env, h],
    fun i => rfl⟩,
   c1_dense_frame_indices c1Env 300 3 (by omega)
     (fun i => by by_cases h : i = 1 <;> simp [c1Env, h]) (fun i => rfl)⟩

/-! ### C2: drift-compensated inter-tick sleeps -/

/-- C2.  On a normal `n`-tick run the inter-tick sleeps are exactly, in
order, `max 0 (interval - elapsed i)` for ticks `0 .. n-2`: one sleep per
tick except the last (so no sleep follows the final tick), and whenever the elapsed time of a
tick reaches the interval its sleep duration is zero — the
next tick starts with no additional delay. -/
theorem c2_sleep_compensation (env : TickEnv) (q : ℚ) (n : Nat) (hn : 1 ≤ n)
    (hc : ∀ i, env.capture i ≠ Except.error Exc.interrupt)
    (hs : ∀ i, env.sleepResult i = Except.ok ()) :
    sleepsOf (loopM env q n 0).1 =
      (List.range (n - 1)).map (fun i => max 0 (q - env.elapsed i)) ∧
    (sleepsOf (loopM env q n 0).1).length = n - 1 ∧
    (∀ i, q ≤ env.elapsed i → max 0 (q - env.elapsed i) = 0) := by
  have h := loopM_normal env q n hc hs n 0 (by omega)
  have h2 : sleepsOf (loopM env q n 0).1 =
      (List.range n).flatMap
        (fun j => if j < n - 1 then [max 0 (q - env.elapsed j)] else []) := by
    rw [h]
    show sleepsOf ((List.range' 0 n).flatMap (expectedTick env q n)) = _
    rw [← List.range_eq_range']
    exact sleepsOf_flatMap env q n (List.range n)
  have hsingle : ∀ l : List Nat, (∀ j ∈ l, j < n - 1) →
      l.flatMap (fun j => if j < n - 1 then [max 0 (q - env.elapsed j)] else []) =
        l.map (fun j => max 0 (q - env.elapsed j)) := by
    intro l
    induction l with
    | nil => intro _; rfl
    | cons j rest ih =>
        intro hall
        rw [List.flatMap_cons, List.map_cons, ih (fun x hx => hall x (List.mem_cons_of_mem j hx))]
        simp [hall j (List.mem_cons_self j rest)]
  have h3 : sleepsOf (loopM env q n 0).1 =
      (List.range (n - 1)).map (fun i => max 0 (q - env.elapsed i)) := by
    rw [h2]
    have hn' : n = (n - 1) + 1 := by omega
    rw [hn', List.range_succ]
    simp only [Nat.add_sub_cancel]
    rw [List.flatMap_append,
      hsingle (List.range (n - 1)) (fun j hj => List.mem_range.mp hj)]
    simp
  refine ⟨h3, ?_, ?_⟩
  · rw [h3, List.length_map, List.length_range]
  · intro i hi
    exact max_eq_left (sub_nonpos.mpr hi)

theorem c2_sleep_compensation_witness :
    (1 ≤ 3 ∧ (∀ i, c1Env.capture i ≠ Except.error Exc.interrupt) ∧
      (∀ i, c1Env.sleepResult i = Except.ok ())) ∧
    (sleepsOf (loopM c1Env 300 3 0).1 =
      (List.range 2).map (fun i => max 0 ((300 : ℚ) - c1Env.elapsed i)) ∧
     (sleepsOf (loopM c1Env 300 3 0).1).length = 2 ∧
     (∀ i, (300 : ℚ) ≤ c1Env.elapsed i → max 0 ((300 : ℚ) - c1Env.elapsed i) = 0)) :=
  ⟨⟨by omega,
    fun i => by by_cases h : i = 1 <;> simp [c1Env, h],
    fun i => rfl⟩,
   c2_sleep_compensation c1Env 300 3 (by omega)
     (fun i => by by_cases h : i = 1 <;> simp [c1Env, h]) (fun i => rfl)⟩

/-! ### C3: the driver is released exactly once on every exit path -/

theorem quit_not_mem_tickM (env : TickEnv) (i : Nat) :
    Action.quit ∉ (tickM env i).1 := by
  rcases h : env.capture i with e | u
  · rcases e with msg | _ <;> simp [tickM, h]
  · simp [tickM, h]

theorem quit_not_mem_sleepM (env : TickEnv) (q : ℚ) (n i : Nat) :
    Action.quit ∉ (sleepM env q n i).1 := by
  by_cases hin : i < n - 1
  · rcases h : env.sleepResult i with e | u <;> simp [sleepM, hin, h]
  · simp [sleepM, hin, mpure]

theorem mem_mseq (x y : M) (a : Action) (h : a ∈ (mseq x y).1) :
    a ∈ x.1 ∨ a ∈ y.1 := by
  rcases x with ⟨tr, r⟩
  rcases r with e | u
  · exact Or.inl h
  · simpa using List.mem_append.mp h

theorem quit_not_mem_loopM (env : TickEnv) (q : ℚ) (n : Nat) :
    ∀ k i, n - i ≤ k → Action.quit ∉ (loopM env q n i).1 := by
  intro k
  induction k with
  | zero =>
      intro i h
      rw [loopM_stop env q n i (by omega)]
      simp [mpure]
  | succ m ih =>
      intro i h
      by_cases hlt : i < n
      · rw [loopM_step env q n i hlt]
        intro hmem
        rcases mem_mseq _ _ _ hmem with h1 | h2
        · exact quit_not_mem_tickM env i h1
        · rcases mem_mseq _ _ _ h2 with h3 | h4
          · exact quit_not_mem_sleepM env q n i h3
          · exact ih (i + 1) (by omega) h4
      · rw [loopM_stop env q n i hlt]
        simp [mpure]

/-- C3.  On every run in which the browser session is acquired
(`new_driver` returned normally), `driver.quit` appears exactly once in
the trace of the run — whatever the ticks do: normal completion, an
`Exception` escaping the loop (e.g. from a failing inter-tick sleep), or
a `KeyboardInterrupt` raised mid-loop all pass through the `finally`
block once. -/
theorem c3_quit_exactly_once (env : MainEnv)
    (hacq : env.acquire = Except.ok ()) :
    (mainM env).1.count Action.quit = 1 := by
  rcases hL : loopM env.tick env.interval env.nshots.toNat 0 with ⟨tr, r⟩
  have hq : Action.quit ∉ tr := by
    have := quit_not_mem_loopM env.tick env.interval env.nshots.toNat
      env.nshots.toNat 0 (by omega)
    rw [hL] at this
    exact this
  have hcount : tr.count Action.quit = 0 := List.count_eq_zero_of_not_mem hq
  rcases r with e | u <;>
    simp [mainM, hacq, hL, mseq, mtryFinally, List.count_append, hcount, List.count_cons,
      List.count_nil]

theorem c3_quit_exactly_once_witness :
    c3Env.acquire = Except.ok () ∧ (mainM c3Env).1.count Action.quit = 1 :=
  ⟨rfl, c3_quit_exactly_once c3Env rfl⟩

/-! ### C6: the pad filter of the actual encoder invocation -/

/-- C6.  The encoder invocation built at main.py lines 129-139 scales to
the target width with aspect ratio preserved (`scale=1920:-1`) but then
pads onto a canvas whose height equals the target width
(`pad=1920:1920`), not to the nearest even height; the manual command the
program itself prints when ffmpeg is missing (lines 108-109) documents
the intended filter `pad=1920:ceil(ih/2)*2`, so the invocation
contradicts the own diagnostic of the code. -/
theorem c6_pad_filter_divergence :
    cmdVf 1920 = "scale=1920:-1,pad=1920:1920:0:0:black" ∧
    manualVf 1920 = "scale=1920:-1,pad=1920:ceil(ih/2)*2:0:0:black" ∧
    cmdVf 1920 ≠ manualVf 1920 ∧
    ffmpegCmd "./captures" 12 "timelapse.mp4" 1920 =
      ["ffmpeg", "-y", "-framerate", "12", "-pattern_type", "glob",
       "-i", "./captures/temp_*.png",
       "-vf", "scale=1920:-1,pad=1920:1920:0:0:black",
       "-c:v", "libx264", "-pix_fmt", "yuv420p", "./captures/timelapse.mp4"] := by
  refine ⟨rfl, rfl, ?_, rfl⟩
  decide

/-! ### Helper lemmas about the rename machinery -/

theorem tempPairsFrom_length (l : List FSFile) : ∀ i, (tempPairsFrom i l).length = l.length := by
  induction l with
  | nil => intro i; rfl
  | cons f rest ih => intro i; simp [tempPairsFrom, ih]

theorem tempPairsFrom_get : ∀ (l : List FSFile) (i j : Nat) (hj : j < l.length)
    (hj2 : j < (tempPairsFrom i l).length),
    (tempPairsFrom i l).get ⟨j, hj2⟩ = ((l.get ⟨j, hj⟩).name, tempBase (i + j)) := by
  intro l
  induction l with
  | nil => intro i j hj _; exact absurd hj (by simp)
  | cons f rest ih =>
      intro i j hj hj2
      cases j with
      | zero => simp [tempPairsFrom]
      | succ m =>
          have hm : m < rest.length := by simpa using hj
          have hm2 : m < (tempPairsFrom (i + 1) rest).length := by
            rw [tempPairsFrom_length]; exact hm
          have := ih (i + 1) m hm hm2
          simp only [tempPairsFrom, List.get_cons_succ, this]
          have : i + 1 + m = i + (m + 1) := by omega
          rw [this]

theorem tempPairsFrom_map_fst (l : List FSFile) :
    ∀ i, (tempPairsFrom i l).map Prod.fst = l.map FSFile.name := by
  induction l with
  | nil => intro i; rfl
  | cons f rest ih => intro i; simp [tempPairsFrom, ih]

theorem tempPairsFrom_map_snd (l : List FSFile) :
    ∀ i, (tempPairsFrom i l).map Prod.snd = (List.range' i l.length).map tempBase := by
  induction l with
  | nil => intro i; rfl
  | cons f rest ih =>
      intro i
      simp [tempPairsFrom, ih, List.range'_succ]

theorem mem_tempPairsFrom : ∀ (l : List FSFile) (i : Nat) (p : String × String),
    p ∈ tempPairsFrom i l →
    (∃ f ∈ l, p.1 = f.name) ∧ ∃ j, j < l.length ∧ p.2 = tempBase (i + j) := by
  intro l
  induction l with
  | nil => intro i p h; exact absurd h (by simp [tempPairsFrom])
  | cons f rest ih =>
      intro i p h
      rcases List.mem_cons.mp h with h0 | h1
      · refine ⟨⟨f, List.mem_cons_self f rest, by rw [h0]⟩, 0, by simp, by rw [h0]; simp⟩
      · obtain ⟨⟨g, hg, hp1⟩, j, hj, hp2⟩ := ih (i + 1) p h1
        exact ⟨⟨g, List.mem_cons_of_mem f hg, hp1⟩, j + 1, by simpa using hj,
          by rw [hp2]; congr 1; omega⟩

theorem mem_of_mem_sortedShots (fs : List FSFile) (f : FSFile)
    (h : f ∈ sortedShots fs) : f ∈ fs := by
  have hg : f ∈ globShots fs :=
    (List.perm_insertionSort mtimeLE (globShots fs)).mem_iff.mp h
  exact (List.mem_filter.mp hg).1

theorem fwdName_cons (p : String × String) (prs : List (String × String)) (n : String) :
    fwdName (p :: prs) n = fwdName prs (step p.1 p.2 n) := rfl

theorem restName_cons (ok : Nat → Bool) (i : Nat) (p : String × String)
    (prs : List (String × String)) (n : String) :
    restName ok i (p :: prs) n = restName ok (i + 1) prs (if ok i then step p.2 p.1 n else n) := rfl

theorem fwdName_eq_of_not_fst :
    ∀ (prs : List (String × String)) (n : String),
      (∀ p ∈ prs, n ≠ p.1) → fwdName prs n = n := by
  intro prs
  induction prs with
  | nil => intro n _; rfl
  | cons p rest ih =>
      intro n h
      rw [fwdName_cons]
      have hp : n ≠ p.1 := h p (List.mem_cons_self p rest)
      rw [show step p.1 p.2 n = n from if_neg hp]
      exact ih n (fun q hq => h q (List.mem_cons_of_mem p hq))

theorem fwdName_mem_or :
    ∀ (prs : List (String × String)) (n : String),
      fwdName prs n = n ∨ fwdName prs n ∈ prs.map Prod.snd := by
  intro prs
  induction prs with
  | nil => intro n; exact Or.inl rfl
  | cons p rest ih =>
      intro n
      rw [fwdName_cons]
      by_cases hp : n = p.1
      · rw [show step p.1 p.2 n = p.2 from if_pos hp]
        rcases ih p.2 with h | h
        · exact Or.inr (by rw [h]; simp)
        · exact Or.inr (by simp [h])
      · rw [show step p.1 p.2 n = n from if_neg hp]
        rcases ih n with h | h
        · exact Or.inl h
        · exact Or.inr (by simp [h])

theorem restName_eq_of_not_snd :
    ∀ (prs : List (String × String)) (ok : Nat → Bool) (i : Nat) (n : String),
      (∀ p ∈ prs, n ≠ p.2) → restName ok i prs n = n := by
  intro prs
  induction prs with
  | nil => intro ok i n _; rfl
  | cons p rest ih =>
      intro ok i n h
      rw [restName_cons]
      have hp : n ≠ p.2 := h p (List.mem_cons_self p rest)
      rw [show step p.2 p.1 n = n from if_neg hp, ite_self]
      exact ih ok (i + 1) n (fun q hq => h q (List.mem_cons_of_mem p hq))

theorem restName_fwdName :
    ∀ (prs : List (String × String)) (ok : Nat → Bool),
      (∀ i, ok i = true) → ∀ (i : Nat) (n : String),
      (∀ p ∈ prs, n ≠ p.2) →
      ((prs.map Prod.snd).Nodup) →
      (∀ p ∈ prs, ∀ q ∈ prs, p.2 ≠ q.1) →
      restName ok i prs (fwdName prs n) = n := by
  intro prs
  induction prs with
  | nil => intro ok _ i n _ _ _; rfl
  | cons p rest ih =>
      intro ok hok i n h1 h2 h3
      rw [fwdName_cons, restName_cons, if_pos (hok i)]
      have hmemp : p ∈ p :: rest := List.mem_cons_self p rest
      by_cases hn : n = p.1
      · rw [show step p.1 p.2 n = p.2 from if_pos hn]
        have hfwd : fwdName rest p.2 = p.2 :=
          fwdName_eq_of_not_fst rest p.2
            (fun q hq => h3 p hmemp q (List.mem_cons_of_mem p hq))
        rw [hfwd, show step p.2 p.1 p.2 = p.1 from if_pos rfl]
        rw [restName_eq_of_not_snd rest ok (i + 1) p.1
          (fun q hq => (h3 q (List.mem_cons_of_mem p hq) p hmemp).symm)]
        exact hn.symm
      · rw [show step p.1 p.2 n = n from if_neg hn]
        have hmt : fwdName rest n ≠ p.2 := by
          rcases fwdName_mem_or rest n with h | h
          · rw [h]; exact h1 p hmemp
          · intro hcon
            have : p.2 ∈ rest.map Prod.snd := by rw [← hcon]; exact h
            exact (List.nodup_cons.mp (by simpa using h2)).1 this
        rw [show step p.2 p.1 (fwdName rest n) = fwdName rest n from if_neg hmt]
        exact ih ok hok (i + 1) n
          (fun q hq => h1 q (List.mem_cons_of_mem p hq))
          (List.nodup_cons.mp (by simpa using h2)).2
          (fun q hq r hr =>
            h3 q (List.mem_cons_of_mem p hq) r (List.mem_cons_of_mem p hr))

theorem fwdName_get :
    ∀ (prs : List (String × String)) (j : Nat) (hj : j < prs.length),
      ((prs.map Prod.fst).Nodup) →
      (∀ p ∈ prs, ∀ q ∈ prs, p.2 ≠ q.1) →
      fwdName prs (prs.get ⟨j, hj⟩).1 = (prs.get ⟨j, hj⟩).2 := by
  intro prs
  induction prs with
  | nil => intro j hj _ _; exact absurd hj (by simp)
  | cons p rest ih =>
      intro j hj hnd h3
      have hmemp : p ∈ p :: rest := List.mem_cons_self p rest
      cases j with
      | zero =>
          rw [show (p :: rest).get ⟨0, hj⟩ = p from rfl]
          rw [fwdName_cons, show step p.1 p.2 p.1 = p.2 from if_pos rfl]
          exact fwdName_eq_of_not_fst rest p.2
            (fun q hq => h3 p hmemp q (List.mem_cons_of_mem p hq))
      | succ m =>
          have hm : m < rest.length := by simpa using hj
          rw [show (p :: rest).get ⟨m + 1, hj⟩ = rest.get ⟨m, hm⟩ from rfl]
          rw [fwdName_cons]
          have hq : (rest.get ⟨m, hm⟩).1 ≠ p.1 := by
            intro hcon
            have hmem : (rest.get ⟨m, hm⟩).1 ∈ rest.map Prod.fst :=
              List.mem_map_of_mem Prod.fst (List.get_mem rest m hm)
            rw [hcon] at hmem
            exact (List.nodup_cons.mp (by simpa using hnd)).1 hmem
          rw [show step p.1 p.2 (rest.get ⟨m, hm⟩).1 = (rest.get ⟨m, hm⟩).1 from if_neg hq]
          exact ih m hm (List.nodup_cons.mp (by simpa using hnd)).2
            (fun a ha b hb =>
              h3 a (List.mem_cons_of_mem p ha) b (List.mem_cons_of_mem p hb))

theorem restName_get :
    ∀ (prs : List (String × String)) (ok : Nat → Bool) (i j : Nat) (hj : j < prs.length),
      ok (i + j) = true →
      ((prs.map Prod.snd).Nodup) →
      (∀ p ∈ prs, ∀ q ∈ prs, p.2 ≠ q.1) →
      restName ok i prs (prs.get ⟨j, hj⟩).2 = (prs.get ⟨j, hj⟩).1 := by
  intro prs
  induction prs with
  | nil => intro ok i j hj _ _ _; exact absurd hj (by simp)
  | cons p rest ih =>
      intro ok i j hj hok hnd h3
      have hmemp : p ∈ p :: rest := List.mem_cons_self p rest
      cases j with
      | zero =>
          rw [show (p :: rest).get ⟨0, hj⟩ = p from rfl]
          rw [restName_cons, if_pos (by simpa using hok),
            show step p.2 p.1 p.2 = p.1 from if_pos rfl]
          exact restName_eq_of_not_snd rest ok (i + 1) p.1
            (fun q hq => (h3 q (List.mem_cons_of_mem p hq) p hmemp).symm)
      | succ m =>
          have hm : m < rest.length := by simpa using hj
          rw [show (p :: rest).get ⟨m + 1, hj⟩ = rest.get ⟨m, hm⟩ from rfl]
          rw [restName_cons]
          have hq : (rest.get ⟨m, hm⟩).2 ≠ p.2 := by
            intro hcon
            have hmem : (rest.get ⟨m, hm⟩).2 ∈ rest.map Prod.snd :=
              List.mem_map_of_mem Prod.snd (List.get_mem rest m hm)
            rw [hcon] at hmem
            exact (List.nodup_cons.mp (by simpa using hnd)).1 hmem
          rw [show (if ok i then step p.2 p.1 (rest.get ⟨m, hm⟩).2 else (rest.get ⟨m, hm⟩).2) =
              (rest.get ⟨m, hm⟩).2 by
            by_cases h : ok i
            · rw [if_pos h]; exact if_neg hq
            · exact if_neg h]
          exact ih ok (i + 1) m hm (by rw [show i + 1 + m = i + (m + 1) from by omega]; exact hok)
            (List.nodup_cons.mp (by simpa using hnd)).2
            (fun a ha b hb =>
              h3 a (List.mem_cons_of_mem p ha) b (List.mem_cons_of_mem p hb))

theorem map_eta (fs : List FSFile) : fs.map (fun f => (⟨f.name, f.mtime⟩ : FSFile)) = fs := by
  have h : (fun f : FSFile => (⟨f.name, f.mtime⟩ : FSFile)) = id := by
    funext f
    cases f
    rfl
  rw [h, List.map_id]

theorem fwdFS_map : ∀ (prs : List (String × String)) (fs : List FSFile),
    fwdFS fs prs = fs.map (fun f => ⟨fwdName prs f.name, f.mtime⟩) := by
  intro prs
  induction prs with
  | nil => intro fs; exact (map_eta fs).symm
  | cons p rest ih =>
      intro fs
      show fwdFS (renameFile fs p.1 p.2) rest = _
      rw [ih, renameFile, List.map_map]
      rfl

theorem restFS_map : ∀ (prs : List (String × String)) (ok : Nat → Bool) (i : Nat)
    (fs : List FSFile),
    restFS ok i fs prs = fs.map (fun f => ⟨restName ok i prs f.name, f.mtime⟩) := by
  intro prs
  induction prs with
  | nil => intro ok i fs; exact (map_eta fs).symm
  | cons p rest ih =>
      intro ok i fs
      show restFS ok (i + 1) (if ok i then renameFile fs p.2 p.1 else fs) rest = _
      by_cases h : ok i
      · rw [if_pos h, ih, renameFile, List.map_map]
        apply List.map_congr_left
        intro f _
        simp only [Function.comp, restName_cons, if_pos h]
      · rw [if_neg h, ih]
        apply List.map_congr_left
        intro f _
        simp only [restName_cons, if_neg h]

/-! ### C4: encoding order comes from modification time only -/

/-- C4.  The assembly pipeline orders the globbed frame files by sorting
on filesystem modification time ascending (the sorted list is a
permutation of the glob result) and assigns each position its dense
zero-padded ordinal temporary name; for any two frame files with
`a.mtime < b.mtime` the ordinal (position in the sorted list) of `a` is
strictly below that of `b` — whatever their filenames, which the
comparison key never reads. -/
theorem c4_order_by_mtime (fs : List FSFile) (a b : FSFile)
    (ha : a ∈ sortedShots fs) (hb : b ∈ sortedShots fs)
    (hab : a.mtime < b.mtime) :
    (sortedShots fs).indexOf a < (sortedShots fs).indexOf b ∧
    List.Perm (sortedShots fs) (globShots fs) ∧
    (∀ j (hj : j < (sortedShots fs).length)
        (hj2 : j < (tempPairs (sortedShots fs)).length),
      (tempPairs (sortedShots fs)).get ⟨j, hj2⟩ =
        (((sortedShots fs).get ⟨j, hj⟩).name, tempBase j)) := by
  refine ⟨?_, List.perm_insertionSort mtimeLE (globShots fs), ?_⟩
  · have hsorted : List.Sorted mtimeLE (sortedShots fs) :=
      List.sorted_insertionSort mtimeLE (globShots fs)
    have hA : (sortedShots fs).indexOf a < (sortedShots fs).length :=
      List.indexOf_lt_length.mpr ha
    have hB : (sortedShots fs).indexOf b < (sortedShots fs).length :=
      List.indexOf_lt_length.mpr hb
    by_contra hcon
    push_neg at hcon
    rcases lt_or_eq_of_le hcon with hlt | heq
    · have hrel := hsorted.rel_get_of_lt
        (a := ⟨(sortedShots fs).indexOf b, hB⟩)
        (b := ⟨(sortedShots fs).indexOf a, hA⟩) (Fin.mk_lt_mk.mpr hlt)
      rw [List.indexOf_get, List.indexOf_get] at hrel
      exact absurd hab (not_lt.mpr hrel)
    · have h1 : (sortedShots fs).get ⟨(sortedShots fs).indexOf b, hB⟩ = b :=
        List.indexOf_get hB
      have h2 : (sortedShots fs).get ⟨(sortedShots fs).indexOf a, hA⟩ = a :=
        List.indexOf_get hA
      have hfin : (⟨(sortedShots fs).indexOf b, hB⟩ : Fin (sortedShots fs).length) =
          ⟨(sortedShots fs).indexOf a, hA⟩ := Fin.ext heq
      rw [hfin, h2] at h1
      rw [h1] at hab
      exact lt_irrefl _ hab
  · intro j hj hj2
    have := tempPairsFrom_get (sortedShots fs) 0 j hj hj2
    simpa [tempPairs] using this

theorem c4_order_by_mtime_witness :
    ((⟨"screenshot_000000_20250101-120000.png", 1⟩ : FSFile) ∈ sortedShots threeShots ∧
      (⟨"screenshot_000001_20250101-120100.png", 2⟩ : FSFile) ∈ sortedShots threeShots ∧
      ((⟨"screenshot_000000_20250101-120000.png", 1⟩ : FSFile)).mtime <
        ((⟨"screenshot_000001_20250101-120100.png", 2⟩ : FSFile)).mtime) ∧
    ((sortedShots threeShots).indexOf ⟨"screenshot_000000_20250101-120000.png", 1⟩ <
      (sortedShots threeShots).indexOf ⟨"screenshot_000001_20250101-120100.png", 2⟩ ∧
     List.Perm (sortedShots threeShots) (globShots threeShots) ∧
     (∀ j (hj : j < (sortedShots threeShots).length)
         (hj2 : j < (tempPairs (sortedShots threeShots)).length),
       (tempPairs (sortedShots threeShots)).get ⟨j, hj2⟩ =
         (((sortedShots threeShots).get ⟨j, hj⟩).name, tempBase j))) :=
  ⟨⟨by decide, by decide, by decide⟩,
   c4_order_by_mtime threeShots _ _ (by decide) (by decide) (by decide)⟩

/-! ### C7: the skip path and its return value -/

/-- C7 (counterexample to distinctness).  The three non-success outcomes
of `maybe_build_video` — encoder unavailable, encoder invocation failure,
and the no-frames condition — all return the same value `False`: the
"skipped" result is not distinct from the "failed" results. -/
theorem c7_counterexample :
    (maybe_build_video threeShots envNoFfmpeg "./captures" 12 "timelapse.mp4" 1920).ret
      = false ∧
    (maybe_build_video threeShots envFfmpegFails "./captures" 12 "timelapse.mp4" 1920).ret
      = false ∧
    (maybe_build_video [] envFfmpegFails "./captures" 12 "timelapse.mp4" 1920).ret
      = false ∧
    (maybe_build_video threeShots envNoFfmpeg "./captures" 12 "timelapse.mp4" 1920).ret =
      (maybe_build_video threeShots envFfmpegFails "./captures" 12 "timelapse.mp4" 1920).ret := by
  refine ⟨rfl, ?_, rfl, ?_⟩ <;> decide

/-- C7 (amended).  When the encoder is unavailable the pipeline returns
before touching any frame file (the folder is exactly as before), surfaces
the one diagnostic carrying the manual command, and returns `False` — the
same boolean the function returns on an encoder invocation error and on
the no-frames condition, so the paths are distinguished only by their
printed diagnostics, not by the returned value. -/
theorem c7_skip_is_untouched_but_not_distinct (fs : List FSFile) (env : BuildEnv)
    (folder : String) (fps : Int) (videoName : String) (width : Int)
    (hun : env.ffmpegAvailable = false) :
    (maybe_build_video fs env folder fps videoName width).fs = fs ∧
    (maybe_build_video fs env folder fps videoName width).msgs =
      [Msg.ffmpegNotFound (manualCmd folder fps videoName width)] ∧
    (maybe_build_video fs env folder fps videoName width).ret = false ∧
    (∀ env2 : BuildEnv, env2.ffmpegAvailable = true → env2.ffmpegExit ≠ 0 →
      (maybe_build_video fs env2 folder fps videoName width).ret = false) := by
  refine ⟨by simp [maybe_build_video, hun], by simp [maybe_build_video, hun],
    by simp [maybe_build_video, hun], ?_⟩
  intro env2 h2 hexit
  by_cases hemp : (sortedShots fs).isEmpty <;>
    simp [maybe_build_video, h2, hexit, hemp]

theorem c7_skip_is_untouched_but_not_distinct_witness :
    envNoFfmpeg.ffmpegAvailable = false ∧
    ((maybe_build_video threeShots envNoFfmpeg "./captures" 12 "timelapse.mp4" 1920).fs
        = threeShots ∧
      (maybe_build_video threeShots envNoFfmpeg "./captures" 12 "timelapse.mp4" 1920).msgs =
        [Msg.ffmpegNotFound (manualCmd "./captures" 12 "timelapse.mp4" 1920)] ∧
      (maybe_build_video threeShots envNoFfmpeg "./captures" 12 "timelapse.mp4" 1920).ret
        = false ∧
      (∀ env2 : BuildEnv, env2.ffmpegAvailable = true → env2.ffmpegExit ≠ 0 →
        (maybe_build_video threeShots env2 "./captures" 12 "timelapse.mp4" 1920).ret
          = false)) :=
  ⟨rfl, c7_skip_is_untouched_but_not_distinct threeShots envNoFfmpeg
    "./captures" 12 "timelapse.mp4" 1920 rfl⟩

/-! ### C5: the restore phase returns the folder to its original state -/

theorem mem_addFile (l : List FSFile) (x : FSFile) (n : String) (t : ℚ)
    (hx : x ∈ l) (hne : x.name ≠ n) : x ∈ addFile l n t := by
  unfold addFile
  by_cases h : l.any (fun f => f.name = n)
  · rw [if_pos h]
    have := List.mem_map_of_mem (fun f : FSFile => if f.name = n then (⟨n, t⟩ : FSFile) else f) hx
    simpa [hne] using this
  · rw [if_neg h]
    exact List.mem_append_left _ hx

/-- C5.  On a run that performs the temporary renaming (encoder present,
at least one frame), if every individual rename back succeeds then the
restore loop of lines 144-148 returns every temporary file to its
original name on both encoder outcomes: on success the folder is exactly
the original files plus the output video, on failure exactly the original
files.  The freshness hypotheses say no pre-existing file already uses a
temporary ordinal name, the temporary names are pairwise distinct, and
the video filename collides with neither the originals nor the
temporaries. -/
theorem c5_restore_on_both_paths (fs : List FSFile) (env : BuildEnv)
    (folder : String) (fps : Int) (videoName : String) (width : Int)
    (havail : env.ffmpegAvailable = true)
    (hne : (sortedShots fs).isEmpty = false)
    (htempfresh : ∀ f ∈ fs, ∀ i ∈ List.range (sortedShots fs).length, f.name ≠ tempBase i)
    (htempnd : (List.range (sortedShots fs).length).Pairwise
      (fun i j => tempBase i ≠ tempBase j))
    (hvideo : videoName ∉ fs.map FSFile.name)
    (hvidtemp : ∀ i ∈ List.range (sortedShots fs).length, videoName ≠ tempBase i)
    (hok : ∀ i, env.renameBackOk i = true) :
    (env.ffmpegExit = 0 →
      (maybe_build_video fs env folder fps videoName width).fs =
        fs ++ [⟨videoName, env.videoMtime⟩]) ∧
    (env.ffmpegExit ≠ 0 →
      (maybe_build_video fs env folder fps videoName width).fs = fs) := by
  set prs := tempPairs (sortedShots fs) with hprs
  have hsnd : prs.map Prod.snd = (List.range (sortedShots fs).length).map tempBase := by
    rw [hprs, tempPairs, tempPairsFrom_map_snd, List.range_eq_range']
  have h2 : (prs.map Prod.snd).Nodup := by
    rw [hsnd]
    exact List.Pairwise.map tempBase (fun a b hab => hab) htempnd
  have h3 : ∀ p ∈ prs, ∀ q ∈ prs, p.2 ≠ q.1 := by
    intro p hp q hq
    obtain ⟨_, j, hjk, hp2⟩ := mem_tempPairsFrom (sortedShots fs) 0 p hp
    obtain ⟨⟨fQ, hfQ, hq1⟩, _⟩ := mem_tempPairsFrom (sortedShots fs) 0 q hq
    rw [hp2, hq1]
    have hfQfs : fQ ∈ fs := mem_of_mem_sortedShots fs fQ hfQ
    have := htempfresh fQ hfQfs j (List.mem_range.mpr hjk)
    simpa using this.symm
  have h1 : ∀ f ∈ fs, ∀ p ∈ prs, f.name ≠ p.2 := by
    intro f hf p hp
    obtain ⟨_, j, hjk, hp2⟩ := mem_tempPairsFrom (sortedShots fs) 0 p hp
    rw [hp2]
    simpa using htempfresh f hf j (List.mem_range.mpr hjk)
  have hrest : ∀ f ∈ fs,
      restName env.renameBackOk 0 prs (fwdName prs f.name) = f.name := fun f hf =>
    restName_fwdName prs env.renameBackOk hok 0 f.name (h1 f hf) h2 h3
  have hmain : (fwdFS fs prs).map
      (fun f => (⟨restName env.renameBackOk 0 prs f.name, f.mtime⟩ : FSFile)) = fs := by
    rw [fwdFS_map, List.map_map]
    have hcongr : ∀ f ∈ fs,
        ((fun f => (⟨restName env.renameBackOk 0 prs f.name, f.mtime⟩ : FSFile)) ∘
          (fun f => (⟨fwdName prs f.name, f.mtime⟩ : FSFile))) f =
          (⟨f.name, f.mtime⟩ : FSFile) := by
      intro f hf
      show (⟨restName env.renameBackOk 0 prs (fwdName prs f.name), f.mtime⟩ : FSFile) = _
      rw [hrest f hf]
    rw [List.map_congr_left hcongr, map_eta]
  constructor
  · intro hexit
    have hfs : (maybe_build_video fs env folder fps videoName width).fs =
        restFS env.renameBackOk 0
          (addFile (fwdFS fs prs) videoName env.videoMtime) prs := by
      simp [maybe_build_video, havail, hne, hexit, hprs]
    have hany : ((fwdFS fs prs).any (fun f => f.name = videoName)) = false := by
      rw [fwdFS_map]
      rw [List.any_eq_false]
      intro x hx
      obtain ⟨f, hf, rfl⟩ := List.mem_map.mp hx
      simp only [decide_eq_true_eq]
      intro hcon0
      have hcon : fwdName prs f.name = videoName := hcon0
      rcases fwdName_mem_or prs f.name with hid | hmem
      · rw [hid] at hcon
        exact hvideo (hcon ▸ List.mem_map_of_mem FSFile.name hf)
      · rw [hcon] at hmem
        rw [hsnd] at hmem
        obtain ⟨j, hj, hje⟩ := List.mem_map.mp hmem
        exact hvidtemp j hj hje.symm
    have haddeq : addFile (fwdFS fs prs) videoName env.videoMtime =
        fwdFS fs prs ++ [⟨videoName, env.videoMtime⟩] := by
      unfold addFile
      rw [if_neg (by rw [hany]; exact Bool.false_ne_true)]
    rw [hfs, haddeq, restFS_map, List.map_append, hmain]
    have hvidname : restName env.renameBackOk 0 prs videoName = videoName := by
      apply restName_eq_of_not_snd
      intro p hp
      obtain ⟨_, j, hjk, hp2⟩ := mem_tempPairsFrom (sortedShots fs) 0 p hp
      rw [hp2]
      simpa using hvidtemp j (List.mem_range.mpr hjk)
    simp [hvidname]
  · intro hexit
    have hfs : (maybe_build_video fs env folder fps videoName width).fs =
        restFS env.renameBackOk 0 (fwdFS fs prs) prs := by
      simp [maybe_build_video, havail, hne, hexit, hprs]
    rw [hfs, restFS_map, hmain]

theorem c5_restore_on_both_paths_witness :
    (envFfmpegOk.ffmpegAvailable = true ∧
      (sortedShots threeShots).isEmpty = false ∧
      (∀ f ∈ threeShots, ∀ i ∈ List.range (sortedShots threeShots).length,
        f.name ≠ tempBase i) ∧
      (List.range (sortedShots threeShots).length).Pairwise
        (fun i j => tempBase i ≠ tempBase j) ∧
      "timelapse.mp4" ∉ threeShots.map FSFile.name ∧
      (∀ i ∈ List.range (sortedShots threeShots).length,
        "timelapse.mp4" ≠ tempBase i) ∧
      (∀ i, envFfmpegOk.renameBackOk i = true)) ∧
    (((0 : Int) = 0 →
      (maybe_build_video threeShots envFfmpegOk "./captures" 12 "timelapse.mp4" 1920).fs =
        threeShots ++ [⟨"timelapse.mp4", envFfmpegOk.videoMtime⟩]) ∧
     ((0 : Int) ≠ 0 →
      (maybe_build_video threeShots envFfmpegOk "./captures" 12 "timelapse.mp4" 1920).fs =
        threeShots)) :=
  ⟨⟨rfl, by decide, by decide, by decide, by decide, by decide, fun i => rfl⟩,
   c5_restore_on_both_paths threeShots envFfmpegOk "./captures" 12 "timelapse.mp4" 1920
     rfl (by decide) (by decide) (by decide) (by decide) (by decide) (fun i => rfl)⟩

/-! ### C8: rename-back failures are isolated but silent -/

/-- C8 (counterexample to "surfaced as a diagnostic").  A concrete run in
which the rename back of the first pair fails: the run prints exactly the
same diagnostics as the run in which every rename succeeds (the
`except: pass` of lines 147-148 swallows the failure without any
message), even though the failure had a real effect — the ordinal file
`temp_000000.png` is orphaned and its original name is gone, while the
restore loop still continued and restored the other two files. -/
theorem c8_counterexample :
    (maybe_build_video threeShots envRename0Fails "./captures" 12 "timelapse.mp4" 1920).msgs =
      (maybe_build_video threeShots envFfmpegFails "./captures" 12 "timelapse.mp4" 1920).msgs ∧
    tempBase 0 ∈ (maybe_build_video threeShots envRename0Fails
      "./captures" 12 "timelapse.mp4" 1920).fs.map FSFile.name ∧
    "screenshot_000000_20250101-120000.png" ∉ (maybe_build_video threeShots envRename0Fails
      "./captures" 12 "timelapse.mp4" 1920).fs.map FSFile.name ∧
    "screenshot_000001_20250101-120100.png" ∈ (maybe_build_video threeShots envRename0Fails
      "./captures" 12 "timelapse.mp4" 1920).fs.map FSFile.name ∧
    "screenshot_000002_20250101-120200.png" ∈ (maybe_build_video threeShots envRename0Fails
      "./captures" 12 "timelapse.mp4" 1920).fs.map FSFile.name := by
  decide

/-- C8 (amended).  An individual rename-back failure is isolated — the
restore loop continues, and every pair whose own rename back succeeds is
restored to its original name regardless of which other renames fail —
but it is silently ignored: the diagnostics and the return value of
`maybe_build_video` are identical for every rename-back oracle, so no
rename failure is ever surfaced. -/
theorem c8_rename_failure_isolated_but_silent (fs : List FSFile) (env : BuildEnv)
    (folder : String) (fps : Int) (videoName : String) (width : Int) (ok2 : Nat → Bool)
    (havail : env.ffmpegAvailable = true)
    (hne : (sortedShots fs).isEmpty = false)
    (hnd : ((sortedShots fs).map FSFile.name).Nodup)
    (htempfresh : ∀ f ∈ fs, ∀ i ∈ List.range (sortedShots fs).length, f.name ≠ tempBase i)
    (htempnd : (List.range (sortedShots fs).length).Pairwise
      (fun i j => tempBase i ≠ tempBase j))
    (hvidtemp : ∀ i ∈ List.range (sortedShots fs).length, videoName ≠ tempBase i) :
    ((maybe_build_video fs { env with renameBackOk := ok2 } folder fps videoName width).msgs =
       (maybe_build_video fs env folder fps videoName width).msgs ∧
     (maybe_build_video fs { env with renameBackOk := ok2 } folder fps videoName width).ret =
       (maybe_build_video fs env folder fps videoName width).ret) ∧
    (∀ j (hj : j < (sortedShots fs).length), env.renameBackOk j = true →
      ((sortedShots fs).get ⟨j, hj⟩).name ∈
        (maybe_build_video fs env folder fps videoName width).fs.map FSFile.name) := by
  set prs := tempPairs (sortedShots fs) with hprs
  have hsnd : prs.map Prod.snd = (List.range (sortedShots fs).length).map tempBase := by
    rw [hprs, tempPairs, tempPairsFrom_map_snd, List.range_eq_range']
  have hfst : prs.map Prod.fst = (sortedShots fs).map FSFile.name := by
    rw [hprs, tempPairs, tempPairsFrom_map_fst]
  have h2 : (prs.map Prod.snd).Nodup := by
    rw [hsnd]
    exact List.Pairwise.map tempBase (fun a b hab => hab) htempnd
  have h3 : ∀ p ∈ prs, ∀ q ∈ prs, p.2 ≠ q.1 := by
    intro p hp q hq
    obtain ⟨_, j, hjk, hp2⟩ := mem_tempPairsFrom (sortedShots fs) 0 p hp
    obtain ⟨⟨fQ, hfQ, hq1⟩, _⟩ := mem_tempPairsFrom (sortedShots fs) 0 q hq
    rw [hp2, hq1]
    have hfQfs : fQ ∈ fs := mem_of_mem_sortedShots fs fQ hfQ
    have := htempfresh fQ hfQfs j (List.mem_range.mpr hjk)
    simpa using this.symm
  refine ⟨?_, ?_⟩
  · by_cases hemp : (sortedShots fs).isEmpty = true
    · constructor <;> simp [maybe_build_video, havail, hemp]
    · by_cases hexit : env.ffmpegExit = 0 <;>
        constructor <;>
          simp [maybe_build_video, havail,
            Bool.not_eq_true (sortedShots fs).isEmpty ▸ hemp, hexit]
  · intro j hj hokj
    have hjp : j < prs.length := by
      rw [hprs, tempPairs, tempPairsFrom_length]
      exact hj
    have hget : prs.get ⟨j, hjp⟩ = (((sortedShots fs).get ⟨j, hj⟩).name, tempBase j) := by
      have := tempPairsFrom_get (sortedShots fs) 0 j hj (by simpa [hprs, tempPairs] using hjp)
      simpa [hprs, tempPairs] using this
    have hfjmem : (sortedShots fs).get ⟨j, hj⟩ ∈ sortedShots fs := List.get_mem _ j hj
    have hfjfs : (sortedShots fs).get ⟨j, hj⟩ ∈ fs :=
      mem_of_mem_sortedShots fs _ hfjmem
    have hfwd : fwdName prs ((sortedShots fs).get ⟨j, hj⟩).name = tempBase j := by
      have h := fwdName_get prs j hjp (by rw [hfst]; exact hnd) h3
      rw [hget] at h
      exact h
    have hrestn : restName env.renameBackOk 0 prs (tempBase j) =
        ((sortedShots fs).get ⟨j, hj⟩).name := by
      have h := restName_get prs env.renameBackOk 0 j hjp (by simpa using hokj) h2 h3
      rw [hget] at h
      exact h
    have hx : (⟨tempBase j, ((sortedShots fs).get ⟨j, hj⟩).mtime⟩ : FSFile) ∈ fwdFS fs prs := by
      rw [fwdFS_map]
      refine List.mem_map.mpr ⟨(sortedShots fs).get ⟨j, hj⟩, hfjfs, ?_⟩
      show (⟨fwdName prs ((sortedShots fs).get ⟨j, hj⟩).name,
        ((sortedShots fs).get ⟨j, hj⟩).mtime⟩ : FSFile) = _
      rw [hfwd]
    have hvt : tempBase j ≠ videoName :=
      fun hcon => hvidtemp j (List.mem_range.mpr hj) hcon.symm
    have hfinal : ∀ fs2 : List FSFile,
        (⟨tempBase j, ((sortedShots fs).get ⟨j, hj⟩).mtime⟩ : FSFile) ∈ fs2 →
        ((sortedShots fs).get ⟨j, hj⟩).name ∈
          (restFS env.renameBackOk 0 fs2 prs).map FSFile.name := by
      intro fs2 hmem
      rw [restFS_map]
      have h1 := List.mem_map_of_mem
        (fun f => (⟨restName env.renameBackOk 0 prs f.name, f.mtime⟩ : FSFile)) hmem
      have h2m := List.mem_map_of_mem FSFile.name h1
      simpa [hrestn] using h2m
    by_cases hexit : env.ffmpegExit = 0
    · have hfs : (maybe_build_video fs env folder fps videoName width).fs =
          restFS env.renameBackOk 0
            (addFile (fwdFS fs prs) videoName env.videoMtime) prs := by
        simp [maybe_build_video, havail, hne, hexit, hprs]
      rw [hfs]
      exact hfinal _ (mem_addFile _ _ _ _ hx hvt)
    · have hfs : (maybe_build_video fs env folder fps videoName width).fs =
          restFS env.renameBackOk 0 (fwdFS fs prs) prs := by
        simp [maybe_build_video, havail, hne, hexit, hprs]
      rw [hfs]
      exact hfinal _ hx

theorem c8_rename_failure_isolated_but_silent_witness :
    (envRename0Fails.ffmpegAvailable = true ∧
      (sortedShots threeShots).isEmpty = false ∧
      ((sortedShots threeShots).map FSFile.name).Nodup ∧
      (∀ f ∈ threeShots, ∀ i ∈ List.range (sortedShots threeShots).length,
        f.name ≠ tempBase i) ∧
      (List.range (sortedShots threeShots).length).Pairwise
        (fun i j => tempBase i ≠ tempBase j) ∧
      (∀ i ∈ List.range (sortedShots threeShots).length,
        "timelapse.mp4" ≠ tempBase i)) ∧
    (((maybe_build_video threeShots { envRename0Fails with renameBackOk := fun _ => true }
        "./captures" 12 "timelapse.mp4" 1920).msgs =
        (maybe_build_video threeShots envRename0Fails
          "./captures" 12 "timelapse.mp4" 1920).msgs ∧
      (maybe_build_video threeShots { envRename0Fails with renameBackOk := fun _ => true }
        "./captures" 12 "timelapse.mp4" 1920).ret =
        (maybe_build_video threeShots envRename0Fails
          "./captures" 12 "timelapse.mp4" 1920).ret) ∧
     (∀ j (hj : j < (sortedShots threeShots).length),
        envRename0Fails.renameBackOk j = true →
        ((sortedShots threeShots).get ⟨j, hj⟩).name ∈
          (maybe_build_video threeShots envRename0Fails
            "./captures" 12 "timelapse.mp4" 1920).fs.map FSFile.name)) :=
  ⟨⟨rfl, by decide, by decide, by decide, by decide, by decide⟩,
   c8_rename_failure_isolated_but_silent threeShots envRename0Fails
     "./captures" 12 "timelapse.mp4" 1920 (fun _ => true)
     rfl (by decide) (by decide) (by decide) (by decide) (by decide)⟩

end WT
